import Mathlib

set_option maxHeartbeats 1000000

/-!
Formal model of the line-following robot control code: the PID controller
(PID.py), the reflectance-array sensor frontend (reflective_array_subsystem.py),
the motor driver and encoder (motor_2_channel.py), the fork maneuver (fork.py)
and the main track-sequencer loop (robot_main.py).  Python floats are modelled
as rationals; hardware reads (sensor frames, encoder rates, the clock, the
button) are explicit inputs; hardware writes are recorded as event traces.
-/

/-- State of one PID controller instance (class PID in PID.py). -/
structure PID where
  kp : ℚ
  ki : ℚ
  kd : ℚ
  integral_limit : Option ℚ
  integral : ℚ
  prev_error : ℚ
  first : Bool
deriving DecidableEq

/-- PID constructor: gains, optional symmetric clamp, zero integral and
previous error, first-call flag set (PID.py lines 2-10). -/
def PID.init (kp ki kd : ℚ) (integral_limit : Option ℚ) : PID :=
  { kp := kp, ki := ki, kd := kd, integral_limit := integral_limit,
    integral := 0, prev_error := 0, first := true }

/-- PID.reset: clear integral, previous error and the first-call flag;
gains untouched (PID.py lines 12-15). -/
def PID.reset (st : PID) : PID :=
  { st with integral := 0, prev_error := 0, first := true }

/-- The symmetric integral clamp of PID.update (PID.py lines 22-26). -/
def PID.clampIntegral (lim : Option ℚ) (x : ℚ) : ℚ :=
  match lim with
  | none => x
  | some l => if l < x then l else if x < -l then -l else x

/-- PID.update(setpoint, measurement, dt): returns the output and the new
state (PID.py lines 17-41).  The derivative is zero on the first call or when
dt ≤ 0, and prev_error is updated to the current error in both branches. -/
def PID.update (st : PID) (setpoint measurement dt : ℚ) : ℚ × PID :=
  let error := setpoint - measurement
  let integral := PID.clampIntegral st.integral_limit (st.integral + error * dt)
  if st.first ∨ dt ≤ 0 then
    (st.kp * error + st.ki * integral + st.kd * 0,
     { st with integral := integral, prev_error := error, first := false })
  else
    let derivative := (error - st.prev_error) / dt
    (st.kp * error + st.ki * integral + st.kd * derivative,
     { st with integral := integral, prev_error := error })

/-- Outputs and final state of a sequence of update calls. -/
def PID.run (st : PID) : List (ℚ × ℚ × ℚ) → List ℚ × PID
  | [] => ([], st)
  | (sp, m, dt) :: rest =>
    let u := PID.update st sp m dt
    let r := PID.run u.2 rest
    (u.1 :: r.1, r.2)

/-- The states after each call of a sequence of update calls. -/
def PID.states (st : PID) : List (ℚ × ℚ × ℚ) → List PID
  | [] => []
  | (sp, m, dt) :: rest =>
    let st' := (PID.update st sp m dt).2
    st' :: PID.states st' rest

/-- State of the ReflectiveArray sensor frontend (reflective_array_subsystem.py):
the optional EMA smoothing factor, the sticky last raw error, the filtered
error and the black-bar debounce counter.  A calibrated frame is the list of
0/1 readings of read_calibrated, modelled as booleans (true = black). -/
structure ReflectiveArray where
  ema_alpha : Option ℚ
  last_error : ℚ
  filtered_error : ℚ
  bar_hits : ℕ
deriving DecidableEq

/-- ReflectiveArray constructor state (lines 46-54): zero sticky error, zero
filtered error, zero debounce hits. -/
def ReflectiveArray.init (ema_alpha : Option ℚ) : ReflectiveArray :=
  { ema_alpha := ema_alpha, last_error := 0, filtered_error := 0, bar_hits := 0 }

/-- Sensor weights, left negative to right positive (line 89). -/
def ReflectiveArray.weights : List ℤ := [-4, -3, -2, -1, 1, 2, 3, 4]

/-- The num/den accumulation loop of get_line_error (lines 91-96): sum of the
weights of the active sensors, and the count of active sensors. -/
def ReflectiveArray.centroid (ws : List ℤ) (vals : List Bool) : ℤ × ℕ :=
  (List.zip ws vals).foldl
    (fun acc wv => if wv.2 then (acc.1 + wv.1, acc.2 + 1) else acc) (0, 0)

/-- get_line_error (lines 81-111): weighted centroid normalized by 4; on a
zero-activation frame the sticky last error is reused and the state is kept;
with an EMA factor configured the result is filtered before being returned. -/
def ReflectiveArray.get_line_error (st : ReflectiveArray) (vals : List Bool) :
    ℚ × ReflectiveArray :=
  let nd := ReflectiveArray.centroid ReflectiveArray.weights vals
  let p : ℚ × ReflectiveArray :=
    if nd.2 = 0 then (st.last_error, st)
    else
      let err : ℚ := ((nd.1 : ℚ) / (nd.2 : ℚ)) / 4
      (err, { st with last_error := err })
  match st.ema_alpha with
  | some a =>
    let f := a * p.1 + (1 - a) * p.2.filtered_error
    (f, { p.2 with filtered_error := f })
  | none => p

/-- Outputs and final state of a sequence of get_line_error calls. -/
def ReflectiveArray.runErrors (st : ReflectiveArray) :
    List (List Bool) → List ℚ × ReflectiveArray
  | [] => ([], st)
  | f :: rest =>
    let e := ReflectiveArray.get_line_error st f
    let r := ReflectiveArray.runErrors e.2 rest
    (e.1 :: r.1, r.2)

/-- black_count (lines 113-115): how many sensors currently see black. -/
def ReflectiveArray.black_count (vals : List Bool) : ℕ := vals.count true

/-- is_black_bar (lines 117-122): at least threshold sensors see black. -/
def ReflectiveArray.is_black_bar (vals : List Bool) (threshold : ℕ) : Bool :=
  decide (threshold ≤ ReflectiveArray.black_count vals)

/-- One step of the reset-on-miss debounce counter of is_black_bar_confirmed
(lines 127-136): increment on a bar sample, reset to 0 on any miss; fire when
the updated counter reaches required_hits. -/
def barStep (required_hits hits : ℕ) (bar : Bool) : ℕ × Bool :=
  let hits' := if bar then hits + 1 else 0
  (hits', decide (required_hits ≤ hits'))

/-- is_black_bar_confirmed (lines 127-136): the debounced black-bar detector,
one call on one frame. -/
def ReflectiveArray.is_black_bar_confirmed (st : ReflectiveArray) (vals : List Bool)
    (threshold required_hits : ℕ) : Bool × ReflectiveArray :=
  let s := barStep required_hits st.bar_hits (ReflectiveArray.is_black_bar vals threshold)
  (s.2, { st with bar_hits := s.1 })

/-- Iterated barStep over a stream of bar/no-bar samples: final counter value
and the stream of fire outputs. -/
def barRun (required_hits hits : ℕ) : List Bool → ℕ × List Bool
  | [] => (hits, [])
  | b :: rest =>
    let s := barStep required_hits hits b
    let r := barRun required_hits s.1 rest
    (r.1, s.2 :: r.2)

/-- Hardware configuration performed by SimpleEncoder.__init__ after the side
check (motor_2_channel.py lines 29-43): either a countio pulse counter or a
polled digital input on the chosen board pin. -/
inductive HwAction
  | counterInit (pin : ℕ)
  | digitalInInit (pin : ℕ)
deriving DecidableEq

/-- Configuration recorded by SimpleEncoder.__init__ (lines 16-43): side,
counts per revolution, idle timeout, board pin, and which counting backend
was configured. -/
structure SimpleEncoder where
  side : String
  cpr : ℚ
  timeout : ℚ
  pin_id : ℕ
  uses_countio : Bool
deriving DecidableEq

/-- The side-to-pin dispatch of SimpleEncoder.__init__ (lines 22-27): left is
board pin D1, right is board pin D0, anything else raises ValueError. -/
def SimpleEncoder.encoderPin (side : String) : Except String ℕ :=
  if side = "left" then Except.ok 1
  else if side = "right" then Except.ok 0
  else Except.error "Side must be left or right"

/-- SimpleEncoder.__init__ (lines 16-43) with default counts_per_rev = 12 and
timeout = 0.5: validates the side, then configures the counting hardware
(countio when available, else a polled digital input).  The returned list
records the hardware actions performed; on the error path none happen. -/
def SimpleEncoder.init (side : String) (has_countio : Bool) :
    Except String (SimpleEncoder × List HwAction) :=
  match SimpleEncoder.encoderPin side with
  | Except.error e => Except.error e
  | Except.ok pin =>
    Except.ok
      ({ side := side, cpr := 12, timeout := 1/2, pin_id := pin,
         uses_countio := has_countio },
       [if has_countio then HwAction.counterInit pin else HwAction.digitalInInit pin])

/-- Which motor channel a raw duty write addresses. -/
inductive MotorChar
  | L
  | R
deriving DecidableEq

/-- State of the MotorDriver (motor_2_channel.py lines 82-180): direction
pins, 16-bit PWM duty registers, the two per-wheel rate PIDs and the control
loop timestamp. -/
structure MotorDriver where
  dir_l : Bool
  pwm_l : ℕ
  dir_r : Bool
  pwm_r : ℕ
  pid_l : PID
  pid_r : PID
  last_loop_time : ℚ
deriving DecidableEq

/-- MotorDriver.__init__ (lines 83-119): zero duty, rate PIDs with gains
kp = 0.003, ki = 0.005, kd = 0.0001 and integral limit 0.3; t0 is the clock
read at construction. -/
def MotorDriver.init (t0 : ℚ) : MotorDriver :=
  { dir_l := false, pwm_l := 0, dir_r := false, pwm_r := 0,
    pid_l := PID.init (3/1000) (5/1000) (1/10000) (some (3/10)),
    pid_r := PID.init (3/1000) (5/1000) (1/10000) (some (3/10)),
    last_loop_time := t0 }

/-- set_raw_duty (lines 121-136): clamp the duty to [-1,1], convert its
magnitude to a 16-bit duty cycle (int truncation of a non-negative value is
the floor), and set the direction pin from the sign. -/
def MotorDriver.set_raw_duty (m : MotorDriver) (ch : MotorChar) (duty : ℚ) :
    MotorDriver :=
  let d := max (-1 : ℚ) (min 1 duty)
  let speed_int : ℕ := (Int.floor (|d| * 65535)).toNat
  let is_forward : Bool := decide (0 ≤ d)
  match ch with
  | MotorChar.L => { m with dir_l := !is_forward, pwm_l := speed_int }
  | MotorChar.R => { m with dir_r := !is_forward, pwm_r := speed_int }

/-- set_speeds (lines 138-173): time step from the clock (floored to 0.001
when non-positive), target RPM = input * MAX_RPM with MAX_RPM = 200, measured
RPM signed by the sign of the request, one rate-PID update per wheel, and
feed-forward plus correction written as the raw duty of each channel.  The
arguments now, raw_rpm_l and raw_rpm_r are the clock and encoder reads made
during this call. -/
def MotorDriver.set_speeds (m : MotorDriver)
    (left_input right_input now raw_rpm_l raw_rpm_r : ℚ) : MotorDriver :=
  let dt0 := now - m.last_loop_time
  let dt := if dt0 ≤ 0 then (1/1000 : ℚ) else dt0
  let target_l := left_input * 200
  let target_r := right_input * 200
  let current_l := if 0 ≤ left_input then raw_rpm_l else -raw_rpm_l
  let current_r := if 0 ≤ right_input then raw_rpm_r else -raw_rpm_r
  let ul := PID.update m.pid_l target_l current_l dt
  let ur := PID.update m.pid_r target_r current_r dt
  let m1 := { m with last_loop_time := now, pid_l := ul.2, pid_r := ur.2 }
  let m2 := MotorDriver.set_raw_duty m1 MotorChar.L (left_input + ul.1)
  MotorDriver.set_raw_duty m2 MotorChar.R (right_input + ur.1)

/-- stop (lines 175-180): zero raw duty on both channels, then reset both
rate PIDs so they do not wind up while stationary. -/
def MotorDriver.stop (m : MotorDriver) : MotorDriver :=
  let m1 := MotorDriver.set_raw_duty m MotorChar.L 0
  let m2 := MotorDriver.set_raw_duty m1 MotorChar.R 0
  { m2 with pid_l := PID.reset m2.pid_l, pid_r := PID.reset m2.pid_r }

/-- A command observable at the motor/PID boundary during one sequencer tick
or maneuver: a set_speeds call, a stop call, or a steering-PID update call
with its raw output. -/
inductive Event
  | setSpeeds (l r : ℚ)
  | stopCmd
  | pidUpdate (out : ℚ)
deriving DecidableEq

/-- Whether an event is a steering-PID update call. -/
def Event.isPidUpdate : Event → Bool
  | Event.pidUpdate _ => true
  | _ => false

/-- Steering gain KP of robot_main.py line 35 (0.75). -/
def KP : ℚ := 3/4

/-- Steering gain KI of robot_main.py line 36 (0.01). -/
def KI : ℚ := 1/100

/-- Steering gain KD of robot_main.py line 37 (0.07). -/
def KD : ℚ := 7/100

/-- BASE_SPEED of robot_main.py line 38 (0.15). -/
def BASE_SPEED : ℚ := 3/20

/-- MAX_DT of robot_main.py line 41 (0.05). -/
def MAX_DT : ℚ := 1/20

/-- MAX_CORRECTION of robot_main.py line 42 (0.45). -/
def MAX_CORRECTION : ℚ := 9/20

/-- BAR_THRESH of robot_main.py line 51 (0.60). -/
def BAR_THRESH : ℚ := 3/5

/-- BAR_COUNT_THRESH of robot_main.py line 52. -/
def BAR_COUNT_THRESH : ℕ := 4

/-- GAP_THRESH of robot_main.py line 53 (0.10). -/
def GAP_THRESH : ℚ := 1/10

/-- One segment of TRACK_SEQUENCE (robot_main.py lines 56-69): name, whether
an action is attached, and the gap policy flag. -/
structure TrackSegment where
  name : String
  has_action : Bool
  gaps_allowed : Bool
deriving DecidableEq

/-- TRACK_SEQUENCE of robot_main.py lines 56-69 (the START_LINE entry is
commented out in the source). -/
def TRACK_SEQUENCE : List TrackSegment := [
  { name := "SERPENTINE", has_action := false, gaps_allowed := false },
  { name := "STRAIGHTAWAY", has_action := false, gaps_allowed := true },
  { name := "DO_TTURN", has_action := true, gaps_allowed := false },
  { name := "DO_FORK", has_action := true, gaps_allowed := false },
  { name := "FORK_RETURN", has_action := true, gaps_allowed := false },
  { name := "DO_TTURN", has_action := true, gaps_allowed := false },
  { name := "STRAIGHTAWAY", has_action := false, gaps_allowed := true },
  { name := "SERPENTINE", has_action := false, gaps_allowed := false },
  { name := "END_SERP_RET", has_action := false, gaps_allowed := false },
  { name := "FORK_RETURN", has_action := true, gaps_allowed := false }]

/-- current_frame_is_bar (robot_main.py lines 76-78): at least
BAR_COUNT_THRESH sensors above BAR_THRESH. -/
def current_frame_is_bar (vals : List ℚ) : Bool :=
  decide (BAR_COUNT_THRESH ≤ vals.countP (fun v => decide (BAR_THRESH < v)))

/-- Python max over a frame; frames are non-empty in the source, 0 stands in
for the empty case. -/
def frameMax : List ℚ → ℚ
  | [] => 0
  | v :: rest => rest.foldl max v

/-- is_line_lost (robot_main.py lines 80-81): every sensor below GAP_THRESH. -/
def is_line_lost (vals : List ℚ) : Bool :=
  decide (frameMax vals < GAP_THRESH)

/-- Sequencer state at the top of one tick of the main FOLLOWING loop of
run_robot (robot_main.py lines 187-314): segment index, leaky-bucket bar
counter, the gap policy of the current segment, and the steering PID. -/
structure SeqState where
  track_index : ℕ
  bar_hits : ℕ
  gaps_allowed : Bool
  pid : PID
deriving DecidableEq

/-- Environment inputs consumed by one tick: the killswitch button, the raw
time delta, the calibrated frame, the line error the sensor would report this
tick, and the motor commands the segment action would issue if invoked. -/
structure TickInput where
  button_pressed : Bool
  dt_raw : ℚ
  vals : List ℚ
  err : ℚ
  action_events : List Event
deriving DecidableEq

/-- Result of one tick: the next state (none when the loop exits) and the
events issued at the motor/PID boundary during the tick. -/
structure TickOut where
  state : Option SeqState
  events : List Event
deriving DecidableEq

/-- Initial sequencer state of run_robot (lines 187-200): steering PID with
gains KP/KI/KD and no integral limit, index 0, zero bar hits, and the gap
policy of the first segment. -/
def initialSeqState : SeqState :=
  { track_index := 0, bar_hits := 0,
    gaps_allowed := (TRACK_SEQUENCE.getD 0
      { name := "", has_action := false, gaps_allowed := false }).gaps_allowed,
    pid := PID.init KP KI KD none }

/-- One iteration of the main while loop of run_robot (lines 203-314):
killswitch stop, dt clamping to MAX_DT, leaky-bucket bar counting (floored at
0), transition on five confirmed hits (stop past the end of the sequence, or
blind clearing drive, stop, optional segment action, PID and counter reset),
then the gap policy branch, and otherwise the normal clamped PID steering
step.  The debug branch issues no motor command and is not modelled. -/
def runRobotTick (st : SeqState) (inp : TickInput) : TickOut :=
  if inp.button_pressed then
    { state := none, events := [Event.stopCmd] }
  else
    let dt := if MAX_DT < inp.dt_raw then MAX_DT else inp.dt_raw
    let bar_hits1 := if current_frame_is_bar inp.vals then st.bar_hits + 1
                     else st.bar_hits - 1
    if 5 ≤ bar_hits1 then
      let track_index1 := st.track_index + 1
      if TRACK_SEQUENCE.length ≤ track_index1 then
        { state := none, events := [Event.stopCmd] }
      else
        let seg := TRACK_SEQUENCE.getD track_index1
          { name := "", has_action := false, gaps_allowed := false }
        { state := some { track_index := track_index1, bar_hits := 0,
                          gaps_allowed := seg.gaps_allowed, pid := PID.reset st.pid },
          events := [Event.setSpeeds BASE_SPEED BASE_SPEED, Event.stopCmd]
            ++ (if seg.has_action then inp.action_events else []) }
    else if is_line_lost inp.vals then
      if st.gaps_allowed then
        { state := some { st with bar_hits := bar_hits1 },
          events := [Event.setSpeeds BASE_SPEED BASE_SPEED] }
      else
        { state := some { st with bar_hits := bar_hits1 },
          events := [Event.setSpeeds 0 0] }
    else
      let u := PID.update st.pid 0 inp.err dt
      let c1 := if MAX_CORRECTION < u.1 then MAX_CORRECTION else u.1
      let c := if c1 < -MAX_CORRECTION then -MAX_CORRECTION else c1
      { state := some { st with bar_hits := bar_hits1, pid := u.2 },
        events := [Event.pidUpdate u.1,
                   Event.setSpeeds (BASE_SPEED - c) (BASE_SPEED + c)] }

/-- The tick trace of run_robot from a state over a list of tick inputs: each
entry records the pre-state, the consumed input and the tick result; the run
stops when a tick exits the loop. -/
def runRobotTrace (st : SeqState) :
    List TickInput → List (SeqState × TickInput × TickOut)
  | [] => []
  | inp :: rest =>
    let out := runRobotTick st inp
    match out.state with
    | some st' => (st, inp, out) :: runRobotTrace st' rest
    | none => [(st, inp, out)]

/-- execute_random_fork (fork.py lines 96-114) with the random choice made
explicit as a parameter: the motor commands issued (TURN_SPEED = 0.4) and the
returned choice.  There is no validity check in the source: an unrecognized
choice falls through every branch, issues no motor command and is returned
unchanged; no error is ever raised, which the Except layer records. -/
def execute_random_fork (choice : String) : Except String (List Event × String) :=
  let events :=
    if choice = "LEFT" then [Event.setSpeeds 0 (2/5)]
    else if choice = "RIGHT" then [Event.setSpeeds (2/5) 0]
    else if choice = "CENTER" then [Event.setSpeeds (2/5) (2/5)]
    else []
  Except.ok (events, choice)

/-- force_align_and_cross (fork.py lines 20-70): pivot by came_from (LEFT and
RIGHT only; anything else, including CENTER, skips the pivot), stop, re-check
the frame (logging only), jolt forward at 0.35, poll frames until all-white
or the 1.0 s timeout (logging and loop exit only) and stop.  The sensor reads
never change the command sequence, so the commands depend only on came_from;
no error is ever raised, which the Except layer records. -/
def force_align_and_cross (came_from : String) : Except String (List Event) :=
  let pivot :=
    if came_from = "LEFT" then [Event.setSpeeds (-(3 : ℚ)/10) (3/10)]
    else if came_from = "RIGHT" then [Event.setSpeeds (3/10) (-(3 : ℚ)/10)]
    else []
  Except.ok (pivot ++ [Event.stopCmd, Event.setSpeeds (7/20) (7/20), Event.stopCmd])

theorem PID.clampIntegral_bounds (l x : ℚ) (hl : 0 ≤ l) :
    -l ≤ PID.clampIntegral (some l) x ∧ PID.clampIntegral (some l) x ≤ l := by
  simp only [PID.clampIntegral]
  split_ifs with h1 h2 <;> constructor <;> linarith

theorem PID.update_integral_bounds (st : PID) (l sp m dt : ℚ)
    (hlim : st.integral_limit = some l) (hl : 0 ≤ l) :
    -l ≤ (PID.update st sp m dt).2.integral ∧
    (PID.update st sp m dt).2.integral ≤ l ∧
    (PID.update st sp m dt).2.integral_limit = some l := by
  have h := PID.clampIntegral_bounds l (st.integral + (sp - m) * dt) hl
  simp only [PID.update, hlim]
  split_ifs with hbr
  · exact ⟨h.1, h.2, rfl⟩
  · exact ⟨h.1, h.2, rfl⟩

theorem PID.states_integral_clamped (l : ℚ) (hl : 0 ≤ l) :
    ∀ (seq : List (ℚ × ℚ × ℚ)) (st : PID), st.integral_limit = some l →
      ∀ st' ∈ PID.states st seq, -l ≤ st'.integral ∧ st'.integral ≤ l := by
  intro seq
  induction seq with
  | nil => intro st _ st' h; simp [PID.states] at h
  | cons head rest ih =>
    intro st hlim st' hmem
    obtain ⟨sp, m, dt⟩ := head
    have hb := PID.update_integral_bounds st l sp m dt hlim hl
    simp only [PID.states, List.mem_cons] at hmem
    rcases hmem with h | h
    · rw [h]; exact ⟨hb.1, hb.2.1⟩
    · exact ih (PID.update st sp m dt).2 hb.2.2 st' h

/-- Claim C1 counterexample: the integral limit may be configured negative
(it is not None), and then the integral leaves [-limit, +limit]: with limit -1,
after one update call the integral is -1, but [-(-1), -1] contains nothing. -/
theorem pid_integral_limit_cex :
    ((PID.init 0 0 0 (some (-1))).update 0 0 1).2.integral_limit = some (-1) ∧
    ¬ (-(-1 : ℚ) ≤ ((PID.init 0 0 0 (some (-1))).update 0 0 1).2.integral ∧
       ((PID.init 0 0 0 (some (-1))).update 0 0 1).2.integral ≤ -1) := by
  norm_num [PID.update, PID.init, PID.clampIntegral]

/-- Claim C1 (amended): for every gain triple, every non-negative configured
integral limit and every sequence of update calls, the accumulated integral
stays within [-limit, +limit] after every call. -/
theorem pid_integral_always_clamped (kp ki kd l : ℚ) (hl : 0 ≤ l)
    (seq : List (ℚ × ℚ × ℚ)) (st' : PID)
    (hmem : st' ∈ PID.states (PID.init kp ki kd (some l)) seq) :
    -l ≤ st'.integral ∧ st'.integral ≤ l :=
  PID.states_integral_clamped l hl seq (PID.init kp ki kd (some l)) rfl st' hmem

theorem pid_integral_always_clamped_witness :
    -(1 : ℚ) ≤ ((PID.init 0 0 0 (some 1)).update 5 0 1).2.integral ∧
      ((PID.init 0 0 0 (some 1)).update 5 0 1).2.integral ≤ 1 :=
  pid_integral_always_clamped 0 0 0 1 (by decide) [(5, 0, 1)]
    ((PID.init 0 0 0 (some 1)).update 5 0 1).2 (by simp [PID.states])

/-- Claim C2: the first update call after construction or reset has derivative
contribution exactly 0, and so does any call with dt ≤ 0; the output of such a
call is kp*error + ki*integral, and prev_error is still updated to the error. -/
theorem pid_first_call_no_derivative (kp ki kd : ℚ) (lim : Option ℚ) (st : PID)
    (sp m dt : ℚ) (h : st.first = true ∨ dt ≤ 0) :
    (PID.init kp ki kd lim).first = true ∧
    (PID.reset st).first = true ∧
    (PID.update st sp m dt).1
      = st.kp * (sp - m) + st.ki * (PID.update st sp m dt).2.integral ∧
    (PID.update st sp m dt).2.prev_error = sp - m := by
  have hc : (st.first = true) ∨ dt ≤ 0 := h
  refine ⟨rfl, rfl, ?_, ?_⟩
  · simp only [PID.update]
    rw [if_pos (by simpa using hc)]
    ring_nf
  · simp only [PID.update]
    rw [if_pos (by simpa using hc)]

theorem pid_first_call_no_derivative_witness :
    (PID.init 1 2 3 none).first = true ∧
    (PID.reset (PID.init 1 2 3 none)).first = true ∧
    (PID.update (PID.init 1 2 3 none) 4 1 2).1
      = (PID.init 1 2 3 none).kp * (4 - 1)
        + (PID.init 1 2 3 none).ki
          * (PID.update (PID.init 1 2 3 none) 4 1 2).2.integral ∧
    (PID.update (PID.init 1 2 3 none) 4 1 2).2.prev_error = 4 - 1 :=
  pid_first_call_no_derivative 1 2 3 none (PID.init 1 2 3 none) 4 1 2 (Or.inl rfl)

/-- Claim C4: reset followed by replaying a sequence of calls gives exactly the
outputs of a freshly constructed instance with the same gains and integral
limit, and reset leaves kp, ki, kd and integral_limit unchanged. -/
theorem pid_reset_replay_eq_fresh (st : PID) (seq : List (ℚ × ℚ × ℚ)) :
    PID.run (PID.reset st) seq
      = PID.run (PID.init st.kp st.ki st.kd st.integral_limit) seq ∧
    (PID.reset st).kp = st.kp ∧ (PID.reset st).ki = st.ki ∧
    (PID.reset st).kd = st.kd ∧ (PID.reset st).integral_limit = st.integral_limit :=
  ⟨rfl, rfl, rfl, rfl, rfl⟩

theorem ReflectiveArray.get_line_error_ema (st : ReflectiveArray) (f : List Bool) :
    (ReflectiveArray.get_line_error st f).2.ema_alpha = st.ema_alpha := by
  by_cases h : (ReflectiveArray.centroid ReflectiveArray.weights f).2 = 0 <;>
    cases hm : st.ema_alpha <;>
      simp [ReflectiveArray.get_line_error, hm, h]

theorem ReflectiveArray.centroid_of_all_false (vals : List Bool)
    (h : ∀ b ∈ vals, b = false) :
    ∀ (ws : List ℤ) (acc : ℤ × ℕ),
      (List.zip ws vals).foldl
        (fun acc wv => if wv.2 then (acc.1 + wv.1, acc.2 + 1) else acc) acc = acc := by
  induction vals with
  | nil => intro ws acc; cases ws <;> simp
  | cons b rest ih =>
    intro ws acc
    cases ws with
    | nil => simp
    | cons w wrest =>
      have hb : b = false := h b (by simp)
      have hr : ∀ x ∈ rest, x = false := fun x hx => h x (by simp [hx])
      simp [hb, ih hr]

theorem ReflectiveArray.get_line_error_zero_frame (st : ReflectiveArray) (vals : List Bool)
    (hz : ∀ b ∈ vals, b = false) (hema : st.ema_alpha = none) :
    ReflectiveArray.get_line_error st vals = (st.last_error, st) := by
  have hc : ReflectiveArray.centroid ReflectiveArray.weights vals = (0, 0) :=
    ReflectiveArray.centroid_of_all_false vals hz ReflectiveArray.weights (0, 0)
  unfold ReflectiveArray.get_line_error
  rw [hema, hc]
  simp

theorem ReflectiveArray.get_line_error_none_out (st : ReflectiveArray) (f : List Bool)
    (hema : st.ema_alpha = none) :
    (ReflectiveArray.get_line_error st f).1
      = (ReflectiveArray.get_line_error st f).2.last_error := by
  by_cases h : (ReflectiveArray.centroid ReflectiveArray.weights f).2 = 0 <;>
    simp [ReflectiveArray.get_line_error, hema, h]

theorem ReflectiveArray.runErrors_append (st : ReflectiveArray)
    (xs ys : List (List Bool)) :
    ReflectiveArray.runErrors st (xs ++ ys)
      = ((ReflectiveArray.runErrors st xs).1
           ++ (ReflectiveArray.runErrors (ReflectiveArray.runErrors st xs).2 ys).1,
         (ReflectiveArray.runErrors (ReflectiveArray.runErrors st xs).2 ys).2) := by
  induction xs generalizing st with
  | nil => simp [ReflectiveArray.runErrors]
  | cons f rest ih => simp [ReflectiveArray.runErrors, ih]

theorem ReflectiveArray.runErrors_none_ema (fs : List (List Bool)) :
    ∀ st : ReflectiveArray, st.ema_alpha = none →
      (ReflectiveArray.runErrors st fs).2.ema_alpha = none := by
  induction fs with
  | nil => intro st h; simpa [ReflectiveArray.runErrors] using h
  | cons f rest ih =>
    intro st h
    simp only [ReflectiveArray.runErrors]
    exact ih _ (by rw [ReflectiveArray.get_line_error_ema]; exact h)

theorem ReflectiveArray.runErrors_none_getLast (fs : List (List Bool)) :
    ∀ st : ReflectiveArray, st.ema_alpha = none → fs ≠ [] →
      (ReflectiveArray.runErrors st fs).1.getLast?
        = some (ReflectiveArray.runErrors st fs).2.last_error := by
  induction fs with
  | nil => intro st _ h; exact absurd rfl h
  | cons f rest ih =>
    intro st hema _
    have hema2 : (ReflectiveArray.get_line_error st f).2.ema_alpha = none := by
      rw [ReflectiveArray.get_line_error_ema]; exact hema
    cases rest with
    | nil =>
      simp only [ReflectiveArray.runErrors, List.getLast?_singleton]
      exact congrArg some (ReflectiveArray.get_line_error_none_out st f hema)
    | cons g more =>
      have hthis := ih (ReflectiveArray.get_line_error st f).2 hema2 (by simp)
      simp only [ReflectiveArray.runErrors] at hthis ⊢
      rw [List.getLast?_cons_cons]
      exact hthis

theorem ReflectiveArray.runErrors_all_zero_state (fs : List (List Bool)) :
    ∀ st : ReflectiveArray, st.ema_alpha = none →
      (∀ f ∈ fs, ∀ b ∈ f, b = false) →
      (ReflectiveArray.runErrors st fs).2 = st := by
  induction fs with
  | nil => intro st _ _; rfl
  | cons f rest ih =>
    intro st hema hz
    have hf : ReflectiveArray.get_line_error st f = (st.last_error, st) :=
      ReflectiveArray.get_line_error_zero_frame st f (fun b hb => hz f (by simp) b hb) hema
    simp only [ReflectiveArray.runErrors, hf]
    exact ih st hema (fun g hg => hz g (by simp [hg]))

/-- Claim C3 counterexample: with EMA smoothing configured (alpha = 1/2, inside
(0,1]), after an active frame returning -1/2, a zero-activation frame returns
-3/4 and not the previously returned -1/2: the sticky raw error is fed through
the filter instead of the previous return value being reused. -/
theorem line_error_zero_frame_ema_cex :
    (ReflectiveArray.runErrors (ReflectiveArray.init (some (1/2)))
        [[true, false, false, false, false, false, false, false],
         [false, false, false, false, false, false, false, false]]).1
      = [-(1 : ℚ)/2, -(3 : ℚ)/4] ∧
    (0 : ℚ) < 1/2 ∧ (1 : ℚ)/2 ≤ 1 ∧
    (-(3 : ℚ)/4) ≠ -(1 : ℚ)/2 := by
  norm_num [ReflectiveArray.runErrors, ReflectiveArray.get_line_error,
    ReflectiveArray.centroid, ReflectiveArray.weights, ReflectiveArray.init]

/-- Claim C3 (amended): with no EMA smoothing configured, a zero-activation
frame returns the previously returned error value (the sticky last error), and
0.0 when no active frame was ever seen; with EMA configured the sticky raw
error is fed through the filter instead, so the returned value may differ from
the previous return (see the counterexample). -/
theorem line_error_sticky_memory (fs : List (List Bool)) (z : List Bool)
    (hz : ∀ b ∈ z, b = false) :
    (ReflectiveArray.runErrors (ReflectiveArray.init none) (fs ++ [z])).1
      = (ReflectiveArray.runErrors (ReflectiveArray.init none) fs).1
        ++ [(ReflectiveArray.runErrors (ReflectiveArray.init none) fs).2.last_error] ∧
    (fs ≠ [] →
      (ReflectiveArray.runErrors (ReflectiveArray.init none) fs).1.getLast?
        = some (ReflectiveArray.runErrors (ReflectiveArray.init none) fs).2.last_error) ∧
    ((∀ f ∈ fs, ∀ b ∈ f, b = false) →
      (ReflectiveArray.runErrors (ReflectiveArray.init none) fs).2.last_error = 0) := by
  have hema : (ReflectiveArray.runErrors (ReflectiveArray.init none) fs).2.ema_alpha = none :=
    ReflectiveArray.runErrors_none_ema fs _ rfl
  refine ⟨?_, ?_, ?_⟩
  · rw [ReflectiveArray.runErrors_append]
    have hzf := ReflectiveArray.get_line_error_zero_frame
      (ReflectiveArray.runErrors (ReflectiveArray.init none) fs).2 z hz hema
    simp [ReflectiveArray.runErrors, hzf]
  · intro hne
    exact ReflectiveArray.runErrors_none_getLast fs _ rfl hne
  · intro hall
    rw [ReflectiveArray.runErrors_all_zero_state fs _ rfl hall]
    rfl

theorem line_error_sticky_memory_witness :
    (ReflectiveArray.runErrors (ReflectiveArray.init none)
        ([[true, false, false, false, false, false, false, false]]
          ++ [[false, false, false, false, false, false, false, false]])).1
      = (ReflectiveArray.runErrors (ReflectiveArray.init none)
          [[true, false, false, false, false, false, false, false]]).1
        ++ [(ReflectiveArray.runErrors (ReflectiveArray.init none)
          [[true, false, false, false, false, false, false, false]]).2.last_error] ∧
    ([[true, false, false, false, false, false, false, false]] ≠ ([] : List (List Bool)) →
      (ReflectiveArray.runErrors (ReflectiveArray.init none)
          [[true, false, false, false, false, false, false, false]]).1.getLast?
        = some (ReflectiveArray.runErrors (ReflectiveArray.init none)
          [[true, false, false, false, false, false, false, false]]).2.last_error) ∧
    ((∀ f ∈ [[true, false, false, false, false, false, false, false]], ∀ b ∈ f, b = false) →
      (ReflectiveArray.runErrors (ReflectiveArray.init none)
          [[true, false, false, false, false, false, false, false]]).2.last_error = 0) :=
  line_error_sticky_memory [[true, false, false, false, false, false, false, false]]
    [false, false, false, false, false, false, false, false] (by decide)

theorem div_div_four_bound (num : ℤ) (den : ℕ) (hden : den ≠ 0)
    (h : |num| ≤ 4 * (den : ℤ)) :
    |((num : ℚ) / (den : ℚ)) / 4| ≤ 1 := by
  have hd : (0 : ℚ) < (den : ℚ) := by exact_mod_cast Nat.pos_of_ne_zero hden
  have habs : |(num : ℚ)| ≤ 4 * (den : ℚ) := by exact_mod_cast h
  rw [abs_div, abs_div, abs_of_pos hd, (by norm_num : |(4 : ℚ)| = 4),
      div_le_iff₀ (by norm_num : (0 : ℚ) < 4), div_le_iff₀ hd]
  linarith

theorem ReflectiveArray.centroid_num_le (ws : List ℤ) :
    ∀ (vals : List Bool) (acc : ℤ × ℕ), (∀ w ∈ ws, |w| ≤ 4) → |acc.1| ≤ 4 * (acc.2 : ℤ) →
      |((List.zip ws vals).foldl
          (fun acc wv => if wv.2 then (acc.1 + wv.1, acc.2 + 1) else acc) acc).1|
        ≤ 4 * (((List.zip ws vals).foldl
          (fun acc wv => if wv.2 then (acc.1 + wv.1, acc.2 + 1) else acc) acc).2 : ℤ) := by
  induction ws with
  | nil => intro vals acc _ h; simpa using h
  | cons w wrest ih =>
    intro vals acc hw hacc
    cases vals with
    | nil => simpa using hacc
    | cons b brest =>
      rw [List.zip_cons_cons, List.foldl_cons]
      have hwr : ∀ x ∈ wrest, |x| ≤ 4 := fun x hx => hw x (by simp [hx])
      by_cases hb : b = true
      · have hnew : |acc.1 + w| ≤ 4 * ((acc.2 + 1 : ℕ) : ℤ) := by
          have h1 : |acc.1 + w| ≤ |acc.1| + |w| := abs_add _ _
          have h2 : |w| ≤ 4 := hw w (by simp)
          push_cast
          linarith
        have := ih brest (acc.1 + w, acc.2 + 1) hwr hnew
        simpa [hb] using this
      · have hbf : b = false := by
          cases b
          · rfl
          · exact absurd rfl hb
        have := ih brest acc hwr hacc
        simpa [hbf] using this

theorem ReflectiveArray.centroid_err_bound (f : List Bool)
    (h : (ReflectiveArray.centroid ReflectiveArray.weights f).2 ≠ 0) :
    |(((ReflectiveArray.centroid ReflectiveArray.weights f).1 : ℚ)
       / ((ReflectiveArray.centroid ReflectiveArray.weights f).2 : ℚ)) / 4| ≤ 1 := by
  have hnum := ReflectiveArray.centroid_num_le ReflectiveArray.weights f (0, 0)
    (by decide) (by simp)
  exact div_div_four_bound _ _ h hnum

theorem ReflectiveArray.get_line_error_bounds (st : ReflectiveArray) (f : List Bool)
    (hema : st.ema_alpha = none ∨ ∃ a, st.ema_alpha = some a ∧ 0 < a ∧ a ≤ 1)
    (hlast : |st.last_error| ≤ 1) (hfilt : |st.filtered_error| ≤ 1) :
    |(ReflectiveArray.get_line_error st f).1| ≤ 1 ∧
    |(ReflectiveArray.get_line_error st f).2.last_error| ≤ 1 ∧
    |(ReflectiveArray.get_line_error st f).2.filtered_error| ≤ 1 := by
  by_cases hden : (ReflectiveArray.centroid ReflectiveArray.weights f).2 = 0
  · rcases hema with hm | ⟨a, hm, ha0, ha1⟩
    · simp only [ReflectiveArray.get_line_error, hm, if_pos hden]
      exact ⟨hlast, hlast, hfilt⟩
    · simp only [ReflectiveArray.get_line_error, hm, if_pos hden]
      have hmix : |a * st.last_error + (1 - a) * st.filtered_error| ≤ 1 := by
        have h1 := abs_le.mp hlast
        have h2 := abs_le.mp hfilt
        rw [abs_le]
        constructor <;> nlinarith
      exact ⟨hmix, hlast, hmix⟩
  · have herr := ReflectiveArray.centroid_err_bound f hden
    rcases hema with hm | ⟨a, hm, ha0, ha1⟩
    · simp only [ReflectiveArray.get_line_error, hm, if_neg hden]
      exact ⟨herr, herr, hfilt⟩
    · simp only [ReflectiveArray.get_line_error, hm, if_neg hden]
      have hmix : |a * ((((ReflectiveArray.centroid ReflectiveArray.weights f).1 : ℚ)
            / ((ReflectiveArray.centroid ReflectiveArray.weights f).2 : ℚ)) / 4)
          + (1 - a) * st.filtered_error| ≤ 1 := by
        have h1 := abs_le.mp herr
        have h2 := abs_le.mp hfilt
        rw [abs_le]
        constructor <;> nlinarith
      exact ⟨hmix, herr, hmix⟩

theorem ReflectiveArray.runErrors_bounded (fs : List (List Bool)) :
    ∀ st : ReflectiveArray,
      (st.ema_alpha = none ∨ ∃ a, st.ema_alpha = some a ∧ 0 < a ∧ a ≤ 1) →
      |st.last_error| ≤ 1 → |st.filtered_error| ≤ 1 →
      ∀ e ∈ (ReflectiveArray.runErrors st fs).1, -1 ≤ e ∧ e ≤ 1 := by
  induction fs with
  | nil => intro st _ _ _ e he; simp [ReflectiveArray.runErrors] at he
  | cons f rest ih =>
    intro st hema hlast hfilt e he
    have hstep := ReflectiveArray.get_line_error_bounds st f hema hlast hfilt
    have hema2 : (ReflectiveArray.get_line_error st f).2.ema_alpha = st.ema_alpha :=
      ReflectiveArray.get_line_error_ema st f
    simp only [ReflectiveArray.runErrors, List.mem_cons] at he
    rcases he with h | h
    · rw [h]; exact abs_le.mp hstep.1
    · exact ih _ (by rw [hema2]; exact hema) hstep.2.1 hstep.2.2 e h

/-- Claim C9: for every frame sequence and every smoothing configuration
(ema_alpha None or in (0,1]), every value returned by get_line_error lies in
[-1, 1], including the sticky-memory path and the smoothed path. -/
theorem line_error_always_in_range (ema : Option ℚ)
    (hema : ema = none ∨ ∃ a, ema = some a ∧ 0 < a ∧ a ≤ 1)
    (fs : List (List Bool)) (e : ℚ)
    (hmem : e ∈ (ReflectiveArray.runErrors (ReflectiveArray.init ema) fs).1) :
    -1 ≤ e ∧ e ≤ 1 :=
  ReflectiveArray.runErrors_bounded fs (ReflectiveArray.init ema) hema
    (by simp [ReflectiveArray.init]) (by simp [ReflectiveArray.init]) e hmem

theorem line_error_always_in_range_witness :
    -1 ≤ (0 : ℚ) ∧ (0 : ℚ) ≤ 1 :=
  line_error_always_in_range none (Or.inl rfl)
    [[true, true, true, true, true, true, true, true]] 0
    (by norm_num [ReflectiveArray.runErrors, ReflectiveArray.get_line_error,
      ReflectiveArray.centroid, ReflectiveArray.weights, ReflectiveArray.init])

theorem barRun_append (N h : ℕ) (xs ys : List Bool) :
    barRun N h (xs ++ ys)
      = ((barRun N (barRun N h xs).1 ys).1,
         (barRun N h xs).2 ++ (barRun N (barRun N h xs).1 ys).2) := by
  induction xs generalizing h with
  | nil => simp [barRun]
  | cons b rest ih => simp [barRun, ih]

theorem barRun_ends_false (N h : ℕ) (s : List Bool) :
    (barRun N h (s ++ [false])).1 = 0 := by
  rw [barRun_append]
  simp [barRun, barStep]

theorem barRun_replicate_true_low (N : ℕ) :
    ∀ (k h : ℕ), h + k < N →
      barRun N h (List.replicate k true) = (h + k, List.replicate k false) := by
  intro k
  induction k with
  | zero => intro h _; simp [barRun]
  | succ k ih =>
    intro h hk
    have hfire : ¬ (N ≤ h + 1) := by omega
    have hih := ih (h + 1) (by omega)
    rw [List.replicate_succ]
    simp only [barRun, barStep, if_true]
    rw [hih]
    have hd : decide (N ≤ h + 1) = false := by simpa using hfire
    rw [hd]
    simp [List.replicate_succ]
    omega

/-- Claim C7: the reset-on-miss debounced bar detector with required hit count
N ≥ 1: the counter resets to 0 on any miss and is 0 after any stream ending in
a miss; from there, N-1 consecutive bar samples followed by one miss never
fire, and N consecutive bar samples fire exactly once, on the last sample. -/
theorem bar_debounce_reset_on_miss (N : ℕ) (hN : 1 ≤ N) (s : List Bool) :
    (barRun N 0 (s ++ [false])).1 = 0 ∧
    (barRun N (barRun N 0 (s ++ [false])).1 (List.replicate (N - 1) true ++ [false])).2
      = List.replicate N false ∧
    (barRun N (barRun N 0 (s ++ [false])).1 (List.replicate N true)).2
      = List.replicate (N - 1) false ++ [true] ∧
    ((barRun N (barRun N 0 (s ++ [false])).1 (List.replicate N true)).2).count true
      = 1 := by
  have h0 : (barRun N 0 (s ++ [false])).1 = 0 := barRun_ends_false N 0 s
  have hlow := barRun_replicate_true_low N (N - 1) 0 (by omega)
  have hNrep : List.replicate N true = List.replicate (N - 1) true ++ [true] := by
    have hsucc : N - 1 + 1 = N := by omega
    calc List.replicate N true = List.replicate (N - 1 + 1) true := by rw [hsucc]
      _ = List.replicate (N - 1) true ++ [true] := by rw [List.replicate_succ']
  have hfull : (barRun N (barRun N 0 (s ++ [false])).1 (List.replicate N true)).2
      = List.replicate (N - 1) false ++ [true] := by
    rw [h0, hNrep, barRun_append, hlow]
    have hone : barRun N (0 + (N - 1)) [true]
        = (0 + (N - 1) + 1, [decide (N ≤ 0 + (N - 1) + 1)]) := by
      simp [barRun, barStep]
    rw [hone]
    have : decide (N ≤ 0 + (N - 1) + 1) = true := by
      have : N ≤ 0 + (N - 1) + 1 := by omega
      simpa using this
    rw [this]
  refine ⟨h0, ?_, hfull, ?_⟩
  · rw [h0, barRun_append, hlow]
    have hone : barRun N (0 + (N - 1)) [false] = (0, [decide (N ≤ 0)]) := by
      simp [barRun, barStep]
    rw [hone]
    have hz : decide (N ≤ 0) = false := by
      have hnz : ¬ (N ≤ 0) := by omega
      simpa using hnz
    rw [hz]
    show List.replicate (N - 1) false ++ [false] = List.replicate N false
    have hsucc : N - 1 + 1 = N := by omega
    calc List.replicate (N - 1) false ++ [false]
        = List.replicate (N - 1 + 1) false := by rw [List.replicate_succ']
      _ = List.replicate N false := by rw [hsucc]
  · rw [hfull, List.count_append]
    have hz2 : List.count true (List.replicate (N - 1) false) = 0 :=
      List.count_eq_zero.mpr (by simp [List.mem_replicate])
    rw [hz2]
    rfl

theorem bar_debounce_reset_on_miss_witness :
    (barRun 3 0 ([true, true] ++ [false])).1 = 0 ∧
    (barRun 3 (barRun 3 0 ([true, true] ++ [false])).1
        (List.replicate (3 - 1) true ++ [false])).2 = List.replicate 3 false ∧
    (barRun 3 (barRun 3 0 ([true, true] ++ [false])).1 (List.replicate 3 true)).2
      = List.replicate (3 - 1) false ++ [true] ∧
    ((barRun 3 (barRun 3 0 ([true, true] ++ [false])).1
        (List.replicate 3 true)).2).count true = 1 :=
  bar_debounce_reset_on_miss 3 (by decide) [true, true]

/-- Claim C10: constructing a SimpleEncoder with a side other than left or
right fails with the ValueError before any encoder hardware state is
configured (no encoder is produced and no hardware action happens), while the
two valid sides always pass the argument check and configure exactly one
counting backend. -/
theorem encoder_invalid_side_fails_fast (side : String) (has_countio : Bool)
    (h : side ≠ "left" ∧ side ≠ "right") :
    SimpleEncoder.init side has_countio = Except.error "Side must be left or right" ∧
    SimpleEncoder.init "left" has_countio
      = Except.ok ({ side := "left", cpr := 12, timeout := 1/2, pin_id := 1,
                     uses_countio := has_countio },
          [if has_countio then HwAction.counterInit 1 else HwAction.digitalInInit 1]) ∧
    SimpleEncoder.init "right" has_countio
      = Except.ok ({ side := "right", cpr := 12, timeout := 1/2, pin_id := 0,
                     uses_countio := has_countio },
          [if has_countio then HwAction.counterInit 0 else HwAction.digitalInInit 0]) := by
  obtain ⟨h1, h2⟩ := h
  refine ⟨?_, rfl, rfl⟩
  simp [SimpleEncoder.init, SimpleEncoder.encoderPin, h1, h2]

theorem encoder_invalid_side_fails_fast_witness :
    SimpleEncoder.init "up" true = Except.error "Side must be left or right" ∧
    SimpleEncoder.init "left" true
      = Except.ok ({ side := "left", cpr := 12, timeout := 1/2, pin_id := 1,
                     uses_countio := true },
          [if true then HwAction.counterInit 1 else HwAction.digitalInInit 1]) ∧
    SimpleEncoder.init "right" true
      = Except.ok ({ side := "right", cpr := 12, timeout := 1/2, pin_id := 0,
                     uses_countio := true },
          [if true then HwAction.counterInit 0 else HwAction.digitalInInit 0]) :=
  encoder_invalid_side_fails_fast "up" true (by simp)

/-- Claim C8 counterexample: invoking the fork maneuver with fixed direction
UP, outside LEFT/RIGHT/CENTER, raises nothing: execute_random_fork returns
normally with no motor command, and force_align_and_cross returns normally
and still issues its stop and jolt motor commands before returning. -/
theorem fork_invalid_direction_cex :
    ("UP" ≠ "LEFT" ∧ "UP" ≠ "RIGHT" ∧ "UP" ≠ "CENTER") ∧
    execute_random_fork "UP" = Except.ok ([], "UP") ∧
    force_align_and_cross "UP"
      = Except.ok [Event.stopCmd, Event.setSpeeds (7/20) (7/20), Event.stopCmd] :=
  ⟨by simp, rfl, rfl⟩

/-- Claim C8 (amended): a fixed direction outside LEFT/RIGHT/CENTER is not
rejected and no invalid-configuration error is raised: execute_random_fork
issues no motor command and returns the choice unchanged, while
force_align_and_cross treats the unknown direction exactly like CENTER,
skipping the alignment pivot but still issuing its stop and jolt motor
commands. -/
theorem fork_invalid_direction_no_error (d : String)
    (h : d ≠ "LEFT" ∧ d ≠ "RIGHT" ∧ d ≠ "CENTER") :
    execute_random_fork d = Except.ok ([], d) ∧
    force_align_and_cross d = force_align_and_cross "CENTER" ∧
    force_align_and_cross d
      = Except.ok [Event.stopCmd, Event.setSpeeds (7/20) (7/20), Event.stopCmd] := by
  obtain ⟨h1, h2, h3⟩ := h
  refine ⟨?_, ?_, ?_⟩ <;>
    simp [execute_random_fork, force_align_and_cross, h1, h2, h3]

theorem fork_invalid_direction_no_error_witness :
    execute_random_fork "STRAIGHT" = Except.ok ([], "STRAIGHT") ∧
    force_align_and_cross "STRAIGHT" = force_align_and_cross "CENTER" ∧
    force_align_and_cross "STRAIGHT"
      = Except.ok [Event.stopCmd, Event.setSpeeds (7/20) (7/20), Event.stopCmd] :=
  fork_invalid_direction_no_error "STRAIGHT" (by simp)

/-- Claim C6 counterexample: on the freshly constructed driver whose encoders
report 100 RPM at the moment set_speeds(0,0) is requested, stop() writes zero
duty to both channels while set_speeds(0,0) writes a nonzero braking duty on
the left channel coming from the rate-PID correction: stop() is not
equivalent to set_speeds(0,0) on the actuation outputs for every state. -/
theorem motor_stop_vs_set_speeds_cex :
    (MotorDriver.stop (MotorDriver.init 0)).pwm_l = 0 ∧
    (MotorDriver.stop (MotorDriver.init 0)).pwm_r = 0 ∧
    (MotorDriver.set_speeds (MotorDriver.init 0) 0 0 1 100 100).pwm_l ≠ 0 := by
  refine ⟨?_, ?_, ?_⟩
  · norm_num [MotorDriver.stop, MotorDriver.set_raw_duty, min_def, max_def]
  · norm_num [MotorDriver.stop, MotorDriver.set_raw_duty, min_def, max_def]
  · norm_num [MotorDriver.set_speeds, MotorDriver.set_raw_duty, MotorDriver.init,
      PID.update, PID.init, PID.clampIntegral, min_def, max_def]
    rw [abs_of_nonneg (by norm_num : (0 : ℚ) ≤ 603/2000)]
    norm_num

/-- Claim C6 (amended): stop() always writes zero duty to both channels with
the forward direction, exactly the actuation effect of set_raw_duty(0) on
each channel, and additionally resets both rate PIDs (integral, previous
error and first-call flag cleared); it is not in general equivalent to
set_speeds(0,0), which adds the rate-PID correction to the request and can
command a nonzero duty (see the counterexample). -/
theorem motor_stop_zero_duty_and_resets (m : MotorDriver) :
    MotorDriver.stop m
      = { MotorDriver.set_raw_duty (MotorDriver.set_raw_duty m MotorChar.L 0)
            MotorChar.R 0 with
          pid_l := PID.reset m.pid_l, pid_r := PID.reset m.pid_r } ∧
    (MotorDriver.stop m).pwm_l = 0 ∧ (MotorDriver.stop m).pwm_r = 0 ∧
    (MotorDriver.stop m).dir_l = false ∧ (MotorDriver.stop m).dir_r = false ∧
    (MotorDriver.stop m).pid_l = PID.reset m.pid_l ∧
    (MotorDriver.stop m).pid_r = PID.reset m.pid_r ∧
    (MotorDriver.stop m).pid_l.integral = 0 ∧
    (MotorDriver.stop m).pid_l.prev_error = 0 ∧
    (MotorDriver.stop m).pid_l.first = true ∧
    (MotorDriver.stop m).pid_r.integral = 0 ∧
    (MotorDriver.stop m).pid_r.prev_error = 0 ∧
    (MotorDriver.stop m).pid_r.first = true := by
  refine ⟨rfl, ?_, ?_, ?_, ?_, rfl, rfl, rfl, rfl, rfl, rfl, rfl, rfl⟩
  all_goals norm_num [MotorDriver.stop, MotorDriver.set_raw_duty, min_def, max_def]

theorem foldl_max_bound (rest : List ℚ) :
    ∀ a : ℚ, a ≤ rest.foldl max a ∧ ∀ v ∈ rest, v ≤ rest.foldl max a := by
  induction rest with
  | nil => intro a; exact ⟨le_refl a, by simp⟩
  | cons b bs ih =>
    intro a
    have h := ih (max a b)
    simp only [List.foldl_cons]
    refine ⟨le_trans (le_max_left a b) h.1, ?_⟩
    intro v hv
    rcases List.mem_cons.mp hv with h1 | h1
    · rw [h1]; exact le_trans (le_max_right a b) h.1
    · exact h.2 v h1

theorem frameMax_mem_le (vals : List ℚ) : ∀ v ∈ vals, v ≤ frameMax vals := by
  cases vals with
  | nil => simp
  | cons a rest =>
    intro v hv
    rcases List.mem_cons.mp hv with h1 | h1
    · rw [h1]; exact (foldl_max_bound rest a).1
    · exact (foldl_max_bound rest a).2 v h1

theorem is_line_lost_not_bar (vals : List ℚ) (h : is_line_lost vals = true) :
    current_frame_is_bar vals = false := by
  simp only [is_line_lost, decide_eq_true_eq] at h
  have hcount : vals.countP (fun v => decide (BAR_THRESH < v)) = 0 := by
    rw [List.countP_eq_zero]
    intro a ha
    have h1 : a ≤ frameMax vals := frameMax_mem_le vals a ha
    have h2 : GAP_THRESH ≤ BAR_THRESH := by norm_num [GAP_THRESH, BAR_THRESH]
    simp only [decide_eq_true_eq]
    intro hlt
    linarith
  simp [current_frame_is_bar, hcount, BAR_COUNT_THRESH]

theorem runRobotTick_gap_stop (st : SeqState) (inp : TickInput)
    (hbar : st.bar_hits ≤ 4) (hbtn : inp.button_pressed = false)
    (hlost : is_line_lost inp.vals = true) (hgap : st.gaps_allowed = false) :
    (runRobotTick st inp).events = [Event.setSpeeds 0 0] ∧
    (runRobotTick st inp).events.all (fun e => !e.isPidUpdate) = true ∧
    (runRobotTick st inp).state = some { st with bar_hits := st.bar_hits - 1 } := by
  have hnotbar := is_line_lost_not_bar inp.vals hlost
  have h5 : ¬ (5 ≤ st.bar_hits - 1) := by omega
  refine ⟨?_, ?_, ?_⟩ <;>
    simp [runRobotTick, hbtn, hnotbar, hlost, hgap, h5, Event.isPidUpdate]

theorem runRobotTick_next_bar_hits (st : SeqState) (inp : TickInput) (st' : SeqState)
    (h : (runRobotTick st inp).state = some st') : st'.bar_hits ≤ 4 := by
  by_cases hbtn : inp.button_pressed
  · simp [runRobotTick, hbtn] at h
  · by_cases hbar5 : 5 ≤ (if current_frame_is_bar inp.vals then st.bar_hits + 1
        else st.bar_hits - 1)
    · by_cases hend : TRACK_SEQUENCE.length ≤ st.track_index + 1
      · simp [runRobotTick, hbtn, hbar5, hend] at h
      · simp only [runRobotTick, hbtn, Bool.false_eq_true, if_false, if_pos hbar5,
          if_neg hend, Option.some.injEq] at h
        rw [← h]
        exact Nat.zero_le 4
    · have hb : (if current_frame_is_bar inp.vals then st.bar_hits + 1
          else st.bar_hits - 1) ≤ 4 := by omega
      by_cases hlost : is_line_lost inp.vals
      · by_cases hga : st.gaps_allowed
        · simp only [runRobotTick, hbtn, Bool.false_eq_true, if_false, if_neg hbar5,
            hlost, if_true, hga, Option.some.injEq] at h
          rw [← h]
          exact hb
        · simp only [runRobotTick, hbtn, Bool.false_eq_true, if_false, if_neg hbar5,
            hlost, if_true, hga, Option.some.injEq] at h
          rw [← h]
          exact hb
      · simp only [runRobotTick, hbtn, Bool.false_eq_true, if_false, if_neg hbar5,
          hlost, Option.some.injEq] at h
        rw [← h]
        exact hb

theorem runRobotTrace_sound (inputs : List TickInput) :
    ∀ st : SeqState, ∀ entry ∈ runRobotTrace st inputs,
      entry.2.2 = runRobotTick entry.1 entry.2.1 := by
  induction inputs with
  | nil => intro st entry hmem; simp [runRobotTrace] at hmem
  | cons inp rest ih =>
    intro st entry hmem
    simp only [runRobotTrace] at hmem
    cases hout : (runRobotTick st inp).state with
    | none =>
      rw [hout] at hmem
      simp only [List.mem_singleton] at hmem
      rw [hmem]
    | some st' =>
      rw [hout] at hmem
      simp only [List.mem_cons] at hmem
      rcases hmem with h | h
      · rw [h]
      · exact ih st' entry h

theorem runRobotTrace_bar_hits_le (inputs : List TickInput) :
    ∀ st : SeqState, st.bar_hits ≤ 4 →
      ∀ entry ∈ runRobotTrace st inputs, entry.1.bar_hits ≤ 4 := by
  induction inputs with
  | nil => intro st h entry hmem; simp [runRobotTrace] at hmem
  | cons inp rest ih =>
    intro st h entry hmem
    simp only [runRobotTrace] at hmem
    cases hout : (runRobotTick st inp).state with
    | none =>
      rw [hout] at hmem
      simp only [List.mem_singleton] at hmem
      rw [hmem]
      exact h
    | some st' =>
      rw [hout] at hmem
      simp only [List.mem_cons] at hmem
      rcases hmem with h1 | h1
      · rw [h1]; exact h
      · exact ih st' (runRobotTick_next_bar_hits st inp st' hout) entry h1

/-- Claim C5: on every tick of the FOLLOWING loop reachable from the initial
state on which the killswitch is not pressed, the frame maximum is below the
gap threshold and the current segment disallows gaps, the speeds commanded to
the drive actuator are exactly (0,0) and no PID update happens on that tick. -/
theorem gap_disallowed_full_stop (inputs : List TickInput)
    (entry : SeqState × TickInput × TickOut)
    (hmem : entry ∈ runRobotTrace initialSeqState inputs)
    (hbtn : entry.2.1.button_pressed = false)
    (hlost : is_line_lost entry.2.1.vals = true)
    (hgap : entry.1.gaps_allowed = false) :
    entry.2.2.events = [Event.setSpeeds 0 0] ∧
    entry.2.2.events.all (fun e => !e.isPidUpdate) = true := by
  have hbar : entry.1.bar_hits ≤ 4 :=
    runRobotTrace_bar_hits_le inputs initialSeqState (by simp [initialSeqState])
      entry hmem
  have hsound : entry.2.2 = runRobotTick entry.1 entry.2.1 :=
    runRobotTrace_sound inputs initialSeqState entry hmem
  have hg := runRobotTick_gap_stop entry.1 entry.2.1 hbar hbtn hlost hgap
  rw [hsound]
  exact ⟨hg.1, hg.2.1⟩

theorem gap_disallowed_full_stop_witness :
    (runRobotTick initialSeqState
        { button_pressed := false, dt_raw := 1/100, vals := [0, 0, 0, 0, 0, 0, 0, 0],
          err := 0, action_events := [] }).events = [Event.setSpeeds 0 0] ∧
    (runRobotTick initialSeqState
        { button_pressed := false, dt_raw := 1/100, vals := [0, 0, 0, 0, 0, 0, 0, 0],
          err := 0, action_events := [] }).events.all (fun e => !e.isPidUpdate)
      = true :=
  gap_disallowed_full_stop
    [{ button_pressed := false, dt_raw := 1/100, vals := [0, 0, 0, 0, 0, 0, 0, 0],
       err := 0, action_events := [] }]
    (initialSeqState,
     { button_pressed := false, dt_raw := 1/100, vals := [0, 0, 0, 0, 0, 0, 0, 0],
       err := 0, action_events := [] },
     runRobotTick initialSeqState
       { button_pressed := false, dt_raw := 1/100, vals := [0, 0, 0, 0, 0, 0, 0, 0],
         err := 0, action_events := [] })
    (by simp only [runRobotTrace]
        cases (runRobotTick initialSeqState
          { button_pressed := false, dt_raw := 1/100, vals := [0, 0, 0, 0, 0, 0, 0, 0],
            err := 0, action_events := [] }).state <;>
          exact List.mem_cons_self _ _)
    rfl
    (by norm_num [is_line_lost, frameMax, GAP_THRESH])
    rfl
